import Mathlib

/-!
# Column type mapping of the Postgres metadata generator

A shallow embedding of `generator/postgres-metadata/column_info.go`.

Go strings are embedded as Lean `String`s.  The only side effect of the code is
`fmt.Println` on the default branch of the two `switch` statements; it is made
explicit: every embedded method returns its Go result together with the list of
lines it printed, in order.
-/

namespace PostgresMetadata

/-- The Go struct `ColumnInfo`. -/
structure ColumnInfo where
  Name : String
  IsNullable : Bool
  DataType : String
  EnumName : String
  deriving DecidableEq, Repr

/-- The method `ColumnInfo.SqlBuilderColumnType`: the returned string and the
lines printed on standard output. -/
def SqlBuilderColumnType (c : ColumnInfo) : String × List String :=
  match c.DataType with
  | "boolean" => ("Bool", [])
  | "smallint" | "integer" | "bigint" => ("Integer", [])
  | "date" => ("Date", [])
  | "timestamp without time zone" => ("Timestamp", [])
  | "timestamp with time zone" => ("Timestampz", [])
  | "time without time zone" => ("Time", [])
  | "time with time zone" => ("Timez", [])
  | "USER-DEFINED" | "text" | "character" | "character varying" | "bytea" | "uuid"
  | "tsvector" | "bit" | "bit varying" | "money" | "json" | "jsonb" | "xml" | "point"
  | "interval" | "line" | "ARRAY" => ("String", [])
  | "real" | "numeric" | "decimal" | "double precision" => ("Float", [])
  | _ =>
    ("String",
      ["Unknown sql type: " ++ c.DataType ++ ", using string column instead for sql builder."])

/-- Go's `strings.Split s "_"` on the characters of `s`: the segments between
underscores, in order, empty segments included. -/
def splitUnderscore : List Char → List (List Char)
  | [] => [[]]
  | c :: cs =>
    if c = '_' then
      [] :: splitUnderscore cs
    else
      match splitUnderscore cs with
      | [] => [[c]]
      | word :: words => (c :: word) :: words

/-- Go's `strings.ToUpper`, acting on the ASCII letters. -/
def ToUpper (s : String) : String :=
  String.mk (s.data.map Char.toUpper)

/-- The string is made of ASCII characters, the ones on which `ToUpper` is Go's
upper-casing. -/
def asciiOnly (s : String) : Bool :=
  s.data.all (fun ch => decide (ch.toNat < 128))

/-- Upper-case the first character of a segment and leave the others as they
are. -/
def capitalizeFirst : List Char → List Char
  | [] => []
  | c :: cs => c.toUpper :: cs

/-- Modelled from the spec: the table `commonInitialisms` of the imported package
`github.com/serenize/snaker`, whose code is not part of the source tree; §4.1
does not list it, the entries are the package's. -/
def commonInitialisms : List String :=
  ["ACL", "API", "ASCII", "CPU", "CSS", "DNS", "EOF", "ETA", "GPU", "GUID", "HTML",
   "HTTP", "HTTPS", "ID", "IP", "JSON", "LHS", "OS", "QPS", "RAM", "RHS", "RPC", "SLA",
   "SMTP", "SQL", "SSH", "TCP", "TLS", "TTL", "UDP", "UI", "UID", "UUID", "URI", "URL",
   "UTF8", "VM", "XML", "XMPP", "XSRF", "XSS", "OAuth"]

/-- Modelled from the spec: the table `snakeToCamelExceptions` of the same
package, the segments that are not converted by rule. -/
def snakeToCamelExceptions : List (String × String) :=
  [("oauth", "OAuth")]

/-- Modelled from the spec: one round of the loop of the package's conversion,
what one segment contributes to the converted name: its entry if it is an
exception, its upper case if that is a common initialism, and otherwise the
segment with its first character upper-cased. -/
def camelWord (word : List Char) : List Char :=
  let exception := (snakeToCamelExceptions.lookup (String.mk word)).getD ""
  if exception.length > 0 then
    exception.data
  else if commonInitialisms.contains (ToUpper (String.mk word)) then
    (ToUpper (String.mk word)).data
  else
    capitalizeFirst word

/-- Modelled from the spec: `snaker.SnakeToCamel`, a function of the imported
package `github.com/serenize/snaker`, whose code is not part of the source tree.
The name-conversion rule of §4.1 is taken the way the package applies it: the
identifier is cut at `_` only, each segment is converted by `camelWord`, and the
results are concatenated with no separator.  Every character that is not `_`,
such as `-`, `[` or a line break, stays inside its segment.  Upper-casing is
that of `ToUpper`, which is Go's on ASCII identifiers. -/
def SnakeToCamel (s : String) : String :=
  String.mk ((splitUnderscore s.data).map camelWord).flatten

/-- The method `ColumnInfo.GoBaseType`: the returned string and the lines
printed on standard output. -/
def GoBaseType (c : ColumnInfo) : String × List String :=
  match c.DataType with
  | "USER-DEFINED" => (SnakeToCamel c.EnumName, [])
  | "boolean" => ("bool", [])
  | "smallint" => ("int16", [])
  | "integer" => ("int32", [])
  | "bigint" => ("int64", [])
  | "date" | "timestamp without time zone" | "timestamp with time zone"
  | "time with time zone" | "time without time zone" => ("time.Time", [])
  | "bytea" => ("[]byte", [])
  | "text" | "character" | "character varying" | "tsvector" | "bit" | "bit varying"
  | "money" | "json" | "jsonb" | "xml" | "point" | "interval" | "line" | "ARRAY" =>
    ("string", [])
  | "real" => ("float32", [])
  | "numeric" | "decimal" | "double precision" => ("float64", [])
  | "uuid" => ("uuid.UUID", [])
  | _ =>
    ("string",
      ["Unknown sql type: " ++ c.DataType ++ ", " ++ c.EnumName ++
        ", using string instead for model type."])

/-- Go's `strings.HasPrefix s p`, on the character sequences of the strings. -/
def HasPrefix (s p : String) : Bool :=
  p.data.isPrefixOf s.data

/-- The method `ColumnInfo.GoModelType`: it calls `GoBaseType`, whose printed
lines are therefore its own. -/
def GoModelType (c : ColumnInfo) : String × List String :=
  let r := GoBaseType c
  let typeStr := r.1
  if c.IsNullable && !HasPrefix typeStr "[]" then
    ("*" ++ typeStr, r.2)
  else
    (typeStr, r.2)

/-- Go's `strings.Join elems sep`. -/
def Join : List String → String → String
  | [], _ => ""
  | [a], _ => a
  | a :: b :: rest, sep => a ++ sep ++ Join (b :: rest) sep

/-- The method `ColumnInfo.GoModelTag`; it prints nothing. -/
def GoModelTag (_c : ColumnInfo) (isPrimaryKey : Bool) : String :=
  let tags : List String := []
  let tags := if isPrimaryKey then tags ++ ["primary_key"] else tags
  if tags.length > 0 then
    "`sql:\"" ++ Join tags "," ++ "\"`"
  else
    ""

/-! ## Vocabulary of the mapping tables -/

/-- The type names with a row of their own in the two mapping tables. -/
def tabulatedTypes : List String :=
  ["boolean", "smallint", "integer", "bigint", "date",
   "timestamp without time zone", "timestamp with time zone",
   "time without time zone", "time with time zone",
   "real", "numeric", "decimal", "double precision",
   "USER-DEFINED", "text", "character", "character varying", "bytea", "uuid",
   "tsvector", "bit", "bit varying", "money", "json", "jsonb", "xml", "point",
   "interval", "line", "ARRAY"]

/-- The builder-tag table of §4.1 with the tag names as the specification
spells them. -/
def specBuilderTable : List (String × String) :=
  [("boolean", "Bool"),
   ("smallint", "Integer"), ("integer", "Integer"), ("bigint", "Integer"),
   ("date", "Date"),
   ("timestamp without time zone", "Timestamp"),
   ("timestamp with time zone", "TimestampWithZone"),
   ("time without time zone", "Time"),
   ("time with time zone", "TimeWithZone"),
   ("real", "Float"), ("numeric", "Float"), ("decimal", "Float"),
   ("double precision", "Float"),
   ("USER-DEFINED", "String"), ("text", "String"), ("character", "String"),
   ("character varying", "String"), ("bytea", "String"), ("uuid", "String"),
   ("tsvector", "String"), ("bit", "String"), ("bit varying", "String"),
   ("money", "String"), ("json", "String"), ("jsonb", "String"), ("xml", "String"),
   ("point", "String"), ("interval", "String"), ("line", "String"),
   ("ARRAY", "String")]

/-- The tag as the code spells it: the two with-time-zone tags are `Timestampz`
and `Timez`, every other tag is spelled as in the specification. -/
def codeTag (tag : String) : String :=
  if tag = "TimestampWithZone" then "Timestampz"
  else if tag = "TimeWithZone" then "Timez"
  else tag

/-- The storage-type table of §4.1 in Go type names, one row per type name other
than `USER-DEFINED`. -/
def storageTable : List (String × String) :=
  [("boolean", "bool"),
   ("smallint", "int16"), ("integer", "int32"), ("bigint", "int64"),
   ("date", "time.Time"),
   ("timestamp without time zone", "time.Time"),
   ("timestamp with time zone", "time.Time"),
   ("time without time zone", "time.Time"),
   ("time with time zone", "time.Time"),
   ("bytea", "[]byte"),
   ("text", "string"), ("character", "string"), ("character varying", "string"),
   ("tsvector", "string"), ("bit", "string"), ("bit varying", "string"),
   ("money", "string"), ("json", "string"), ("jsonb", "string"), ("xml", "string"),
   ("point", "string"), ("interval", "string"), ("line", "string"),
   ("ARRAY", "string"),
   ("real", "float32"),
   ("numeric", "float64"), ("decimal", "float64"), ("double precision", "float64"),
   ("uuid", "uuid.UUID")]

/-- Cut a character sequence at its non-alphanumeric characters: the segments
between separators, in order, empty segments included. -/
def splitSegments : List Char → List (List Char)
  | [] => [[]]
  | c :: cs =>
    if c.isAlphanum then
      match splitSegments cs with
      | [] => [[c]]
      | seg :: rest => (c :: seg) :: rest
    else
      [] :: splitSegments cs

/-- The name-conversion rule in the words of §4.1: split on non-alphanumeric
separators, upper-case the first letter of each segment, concatenate with no
separator. -/
def camelizeRule (s : String) : String :=
  String.mk ((splitSegments s.data).map capitalizeFirst).flatten

/-- The text `sub` occurs in the text `s`. -/
def Contains (s sub : String) : Prop :=
  sub.data <:+: s.data

instance (s sub : String) : Decidable (Contains s sub) := by
  unfold Contains
  infer_instance

/-- The Go type names that `GoBaseType` returns from a string literal. -/
def goTypeNames : List String :=
  ["bool", "int16", "int32", "int64", "time.Time", "[]byte", "string", "float32",
   "float64", "uuid.UUID"]

/-- The nine builder tags as the specification spells them. -/
def specTags : List String :=
  ["Bool", "Integer", "Date", "Timestamp", "TimestampWithZone", "Time", "TimeWithZone",
   "Float", "String"]

/-- The nine builder tags as the code spells them. -/
def codeTags : List String :=
  specTags.map codeTag

/-- For each tabulated type name other than `USER-DEFINED`: the name, the builder
tag and the storage type that the two `switch` statements give it. -/
def resolverRows : List (String × String × String) :=
  [("boolean", "Bool", "bool"),
   ("smallint", "Integer", "int16"), ("integer", "Integer", "int32"),
   ("bigint", "Integer", "int64"),
   ("date", "Date", "time.Time"),
   ("timestamp without time zone", "Timestamp", "time.Time"),
   ("timestamp with time zone", "Timestampz", "time.Time"),
   ("time without time zone", "Time", "time.Time"),
   ("time with time zone", "Timez", "time.Time"),
   ("real", "Float", "float32"),
   ("numeric", "Float", "float64"), ("decimal", "Float", "float64"),
   ("double precision", "Float", "float64"),
   ("text", "String", "string"), ("character", "String", "string"),
   ("character varying", "String", "string"), ("bytea", "String", "[]byte"),
   ("uuid", "String", "uuid.UUID"), ("tsvector", "String", "string"),
   ("bit", "String", "string"), ("bit varying", "String", "string"),
   ("money", "String", "string"), ("json", "String", "string"),
   ("jsonb", "String", "string"), ("xml", "String", "string"),
   ("point", "String", "string"), ("interval", "String", "string"),
   ("line", "String", "string"), ("ARRAY", "String", "string")]

/-- The newline character. -/
def newline : Char :=
  Char.ofNat 10

/-! ## The two `switch` statements -/

/-- On a type name outside the tables `SqlBuilderColumnType` takes its default
branch. -/
theorem SqlBuilderColumnType_default (c : ColumnInfo) (h : c.DataType ∉ tabulatedTypes) :
    SqlBuilderColumnType c =
      ("String",
        ["Unknown sql type: " ++ c.DataType ++
          ", using string column instead for sql builder."]) := by
  unfold SqlBuilderColumnType
  split <;> first
    | rfl
    | (rename_i heq; rw [heq] at h; exact absurd (by decide) h)

/-- On a type name outside the tables `GoBaseType` takes its default branch. -/
theorem GoBaseType_default (c : ColumnInfo) (h : c.DataType ∉ tabulatedTypes) :
    GoBaseType c =
      ("string",
        ["Unknown sql type: " ++ c.DataType ++ ", " ++ c.EnumName ++
          ", using string instead for model type."]) := by
  unfold GoBaseType
  split <;> first
    | rfl
    | (rename_i heq; rw [heq] at h; exact absurd (by decide) h)

/-- Membership in `tabulatedTypes`, as a disjunction of the thirty names. -/
theorem mem_tabulatedTypes (n : String) (h : n ∈ tabulatedTypes) :
    n = "boolean" ∨ n = "smallint" ∨ n = "integer" ∨ n = "bigint" ∨ n = "date" ∨
    n = "timestamp without time zone" ∨ n = "timestamp with time zone" ∨
    n = "time without time zone" ∨ n = "time with time zone" ∨
    n = "real" ∨ n = "numeric" ∨ n = "decimal" ∨ n = "double precision" ∨
    n = "USER-DEFINED" ∨ n = "text" ∨ n = "character" ∨ n = "character varying" ∨
    n = "bytea" ∨ n = "uuid" ∨ n = "tsvector" ∨ n = "bit" ∨ n = "bit varying" ∨
    n = "money" ∨ n = "json" ∨ n = "jsonb" ∨ n = "xml" ∨ n = "point" ∨
    n = "interval" ∨ n = "line" ∨ n = "ARRAY" := by
  simpa only [tabulatedTypes, List.mem_cons, List.mem_singleton, List.mem_nil_iff,
    or_false] using h

/-- On a tabulated type name `SqlBuilderColumnType` prints nothing. -/
theorem SqlBuilderColumnType_silent (c : ColumnInfo) (h : c.DataType ∈ tabulatedTypes) :
    (SqlBuilderColumnType c).2 = [] := by
  rcases mem_tabulatedTypes _ h with h | h | h | h | h | h | h | h | h | h | h | h | h | h | h | h | h | h | h | h | h | h | h | h | h | h | h | h | h | h <;>
    simp [SqlBuilderColumnType, h]

/-- On a tabulated type name `GoBaseType` prints nothing. -/
theorem GoBaseType_silent (c : ColumnInfo) (h : c.DataType ∈ tabulatedTypes) :
    (GoBaseType c).2 = [] := by
  rcases mem_tabulatedTypes _ h with h | h | h | h | h | h | h | h | h | h | h | h | h | h | h | h | h | h | h | h | h | h | h | h | h | h | h | h | h | h <;>
    simp [GoBaseType, h]

/-- The value of `SqlBuilderColumnType` is a function of `DataType` alone. -/
theorem SqlBuilderColumnType_congr (c : ColumnInfo) :
    SqlBuilderColumnType c = SqlBuilderColumnType (ColumnInfo.mk "" false c.DataType "") :=
  rfl

/-- Off the `USER-DEFINED` branch `GoBaseType` returns one of its literals. -/
theorem GoBaseType_mem_goTypeNames (c : ColumnInfo) (hud : c.DataType ≠ "USER-DEFINED") :
    (GoBaseType c).1 ∈ goTypeNames := by
  by_cases hmem : c.DataType ∈ tabulatedTypes
  · rcases mem_tabulatedTypes _ hmem with h | h | h | h | h | h | h | h | h | h | h | h | h | h | h | h | h | h | h | h | h | h | h | h | h | h | h | h | h | h <;>
      first
        | exact absurd h hud
        | simp [GoBaseType, h, goTypeNames]
  · rw [GoBaseType_default c hmem]
    show "string" ∈ goTypeNames
    decide

/-- On the `USER-DEFINED` branch `GoBaseType` returns the converted enum name and
prints nothing. -/
theorem GoBaseType_userDefined (c : ColumnInfo) (h : c.DataType = "USER-DEFINED") :
    GoBaseType c = (SnakeToCamel c.EnumName, []) := by
  simp [GoBaseType, h]

/-! ## The name conversion -/

/-- Upper-casing either leaves a character alone or yields an upper-case letter. -/
theorem toUpper_eq_or_isUpper (c : Char) : c.toUpper = c ∨ c.toUpper.isUpper = true := by
  unfold Char.toUpper
  by_cases h : c.toNat ≥ 97 ∧ c.toNat ≤ 122
  · right
    simp only [h, and_self, if_true]
    obtain ⟨n, hn⟩ : ∃ n, c.toNat = n := ⟨_, rfl⟩
    rw [hn] at h ⊢
    obtain ⟨h1, h2⟩ := h
    interval_cases n <;> decide
  · left
    simp only [h, if_false]

/-- An upper-case letter is its own upper case. -/
theorem toUpper_of_isUpper (c : Char) (h : c.isUpper = true) : c.toUpper = c := by
  unfold Char.toUpper
  have hnot : ¬ (c.toNat ≥ 97 ∧ c.toNat ≤ 122) := by
    simp only [Char.isUpper, Bool.and_eq_true, decide_eq_true_eq] at h
    have h2 : c.val.toNat ≤ 90 := h.2
    show ¬ (c.val.toNat ≥ 97 ∧ c.val.toNat ≤ 122)
    omega
  simp only [hnot, if_false]

/-- Upper-casing a character twice is upper-casing it once. -/
theorem toUpper_toUpper (c : Char) : c.toUpper.toUpper = c.toUpper := by
  rcases toUpper_eq_or_isUpper c with h | h
  · rw [h, h]
  · exact toUpper_of_isUpper _ h

/-- A character whose upper case is not an upper-case letter is its own upper
case. -/
theorem toUpper_eq_of_not_isUpper (c d : Char) (hd : d.isUpper = false)
    (h : c.toUpper = d) : c = d := by
  rcases toUpper_eq_or_isUpper c with h' | h'
  · rw [← h', h]
  · rw [h, hd] at h'
    cases h'

/-- The three ways a segment is converted. -/
theorem camelWord_cases (w : List Char) :
    (w = "oauth".data ∧ camelWord w = "OAuth".data) ∨
    (w ≠ "oauth".data ∧ ToUpper (String.mk w) ∈ commonInitialisms ∧
      camelWord w = w.map Char.toUpper) ∨
    (w ≠ "oauth".data ∧ ToUpper (String.mk w) ∉ commonInitialisms ∧
      camelWord w = capitalizeFirst w) := by
  by_cases hw : w = "oauth".data
  · left
    subst hw
    exact ⟨rfl, by decide⟩
  · right
    have hne : (String.mk w == "oauth") = false := by
      cases hb : (String.mk w == "oauth") with
      | false => rfl
      | true =>
        have he : String.mk w = "oauth" := by simpa using hb
        exact absurd (congrArg String.data he) hw
    have hl : (snakeToCamelExceptions.lookup (String.mk w)).getD "" = "" := by
      simp [snakeToCamelExceptions, List.lookup, hne]
    have hlen : ¬ ("".length > 0) := by decide
    by_cases hi : ToUpper (String.mk w) ∈ commonInitialisms
    · left
      refine ⟨hw, hi, ?_⟩
      unfold camelWord
      dsimp only
      rw [hl, if_neg hlen, if_pos (List.elem_iff.mpr hi)]
      rfl
    · right
      refine ⟨hw, hi, ?_⟩
      unfold camelWord
      dsimp only
      rw [hl, if_neg hlen, if_neg (fun h => hi (List.elem_iff.mp h))]

/-- A character that is no upper-case letter and no character of `OAuth` enters
a converted segment only from the segment. -/
theorem mem_camelWord (d : Char) (hd : d.isUpper = false) (ho : d ∉ "OAuth".data)
    (w : List Char) (h : d ∈ camelWord w) : d ∈ w := by
  rcases camelWord_cases w with ⟨-, hc⟩ | ⟨-, -, hc⟩ | ⟨-, -, hc⟩
  · rw [hc] at h
    exact absurd h ho
  · rw [hc] at h
    obtain ⟨a, ha, hau⟩ := List.mem_map.mp h
    rw [toUpper_eq_of_not_isUpper a d hd hau] at ha
    exact ha
  · rw [hc] at h
    cases w with
    | nil => exact h
    | cons a as =>
      rcases List.mem_cons.mp h with h | h
      · rw [toUpper_eq_of_not_isUpper a d hd h.symm]
        exact List.mem_cons_self _ _
      · exact List.mem_cons_of_mem _ h

/-- A character that is its own upper case and does not occur in `oauth` stays
in a segment when the segment is converted. -/
theorem camelWord_mem (d : Char) (hd : d.toUpper = d) (ho : d ∉ "oauth".data)
    (w : List Char) (h : d ∈ w) : d ∈ camelWord w := by
  rcases camelWord_cases w with ⟨hw, -⟩ | ⟨-, -, hc⟩ | ⟨-, -, hc⟩
  · rw [hw] at h
    exact absurd h ho
  · rw [hc]
    exact List.mem_map.mpr ⟨d, h, hd⟩
  · rw [hc]
    cases w with
    | nil => exact h
    | cons a as =>
      rcases List.mem_cons.mp h with h | h
      · rw [← h]
        show d ∈ Char.toUpper d :: as
        rw [hd]
        exact List.mem_cons_self _ _
      · exact List.mem_cons_of_mem _ h

/-- The characters of the segments are characters of the identifier. -/
theorem mem_of_mem_splitUnderscore (l : List Char) :
    ∀ w ∈ splitUnderscore l, ∀ d ∈ w, d ∈ l := by
  induction l with
  | nil =>
    intro w hw d hd
    simp [splitUnderscore] at hw
    rw [hw] at hd
    exact hd
  | cons c cs ih =>
    intro w hw d hd
    unfold splitUnderscore at hw
    by_cases hc : c = '_'
    · rw [if_pos hc] at hw
      rcases List.mem_cons.mp hw with hw | hw
      · rw [hw] at hd
        cases hd
      · exact List.mem_cons_of_mem _ (ih w hw d hd)
    · rw [if_neg hc] at hw
      cases hs : splitUnderscore cs with
      | nil =>
        rw [hs] at hw
        simp only [List.mem_singleton] at hw
        rw [hw, List.mem_singleton] at hd
        rw [hd]
        exact List.mem_cons_self _ _
      | cons v vs =>
        rw [hs] at hw
        rcases List.mem_cons.mp hw with hw | hw
        · rw [hw] at hd
          rcases List.mem_cons.mp hd with hd | hd
          · rw [hd]; exact List.mem_cons_self _ _
          · exact List.mem_cons_of_mem _ (ih v (by rw [hs]; exact List.mem_cons_self _ _) d hd)
        · exact List.mem_cons_of_mem _
            (ih w (by rw [hs]; exact List.mem_cons_of_mem _ hw) d hd)

/-- No segment contains an underscore. -/
theorem underscore_not_mem_splitUnderscore (l : List Char) :
    ∀ w ∈ splitUnderscore l, '_' ∉ w := by
  induction l with
  | nil =>
    intro w hw
    simp [splitUnderscore] at hw
    rw [hw]
    exact List.not_mem_nil _
  | cons c cs ih =>
    intro w hw
    unfold splitUnderscore at hw
    by_cases hc : c = '_'
    · rw [if_pos hc] at hw
      rcases List.mem_cons.mp hw with hw | hw
      · rw [hw]
        exact List.not_mem_nil _
      · exact ih w hw
    · rw [if_neg hc] at hw
      cases hs : splitUnderscore cs with
      | nil =>
        rw [hs] at hw
        simp only [List.mem_singleton] at hw
        rw [hw]
        intro h
        simp only [List.mem_singleton] at h
        exact hc h.symm
      | cons v vs =>
        rw [hs] at hw
        rcases List.mem_cons.mp hw with hw | hw
        · rw [hw]
          intro h
          rcases List.mem_cons.mp h with h | h
          · exact hc h.symm
          · exact ih v (by rw [hs]; exact List.mem_cons_self _ _) h
        · exact ih w (by rw [hs]; exact List.mem_cons_of_mem _ hw)

/-- A character other than the underscore lies in one of the segments. -/
theorem exists_mem_splitUnderscore (d : Char) (hd : d ≠ '_') (l : List Char) (h : d ∈ l) :
    ∃ w ∈ splitUnderscore l, d ∈ w := by
  induction l with
  | nil => cases h
  | cons c cs ih =>
    unfold splitUnderscore
    by_cases hc : c = '_'
    · rw [if_pos hc]
      rcases List.mem_cons.mp h with h | h
      · exact absurd (h.trans hc) hd
      · obtain ⟨w, hw, hdw⟩ := ih h
        exact ⟨w, List.mem_cons_of_mem _ hw, hdw⟩
    · rw [if_neg hc]
      cases hs : splitUnderscore cs with
      | nil =>
        rcases List.mem_cons.mp h with h | h
        · exact ⟨[c], List.mem_cons_self _ _, by rw [h]; exact List.mem_cons_self _ _⟩
        · obtain ⟨w, hw, -⟩ := ih h
          rw [hs] at hw
          cases hw
      | cons v vs =>
        rcases List.mem_cons.mp h with h | h
        · exact ⟨c :: v, List.mem_cons_self _ _, by rw [h]; exact List.mem_cons_self _ _⟩
        · obtain ⟨w, hw, hdw⟩ := ih h
          rw [hs] at hw
          rcases List.mem_cons.mp hw with hw | hw
          · exact ⟨c :: v, List.mem_cons_self _ _, by
              rw [hw] at hdw; exact List.mem_cons_of_mem _ hdw⟩
          · exact ⟨w, List.mem_cons_of_mem _ hw, hdw⟩

/-- An identifier without underscore is its own single segment. -/
theorem splitUnderscore_of_not_mem (l : List Char) (h : '_' ∉ l) :
    splitUnderscore l = [l] := by
  induction l with
  | nil => rfl
  | cons c cs ih =>
    have hc : c ≠ '_' := fun hc => h (by rw [hc]; exact List.mem_cons_self _ _)
    have hcs : '_' ∉ cs := fun hcs => h (List.mem_cons_of_mem _ hcs)
    unfold splitUnderscore
    rw [if_neg hc, ih hcs]

/-- A character that is no upper-case letter and no character of `OAuth` enters
a converted name only from the identifier. -/
theorem mem_of_mem_SnakeToCamel (d : Char) (hd : d.isUpper = false) (ho : d ∉ "OAuth".data)
    (x : String) (h : d ∈ (SnakeToCamel x).data) : d ∈ x.data := by
  unfold SnakeToCamel at h
  simp only [List.mem_flatten, List.mem_map] at h
  obtain ⟨l, ⟨w, hw, hwl⟩, hdl⟩ := h
  rw [← hwl] at hdl
  exact mem_of_mem_splitUnderscore x.data w hw d (mem_camelWord d hd ho w hdl)

/-- A character other than the underscore that is its own upper case and does
not occur in `oauth` is kept by the conversion. -/
theorem mem_SnakeToCamel (d : Char) (hu : d ≠ '_') (hd : d.toUpper = d)
    (ho : d ∉ "oauth".data) (x : String) (h : d ∈ x.data) :
    d ∈ (SnakeToCamel x).data := by
  obtain ⟨w, hw, hdw⟩ := exists_mem_splitUnderscore d hu x.data h
  unfold SnakeToCamel
  simp only [List.mem_flatten, List.mem_map]
  exact ⟨camelWord w, ⟨w, hw, rfl⟩, camelWord_mem d hd ho w hdw⟩

/-- A converted name contains a line break exactly when the identifier does. -/
theorem newline_mem_SnakeToCamel (x : String) :
    newline ∈ (SnakeToCamel x).data ↔ newline ∈ x.data :=
  ⟨mem_of_mem_SnakeToCamel newline (by decide) (by decide) x,
   mem_SnakeToCamel newline (by decide) (by decide) (by decide) x⟩

/-- A converted name contains no underscore. -/
theorem underscore_not_mem_SnakeToCamel (x : String) : '_' ∉ (SnakeToCamel x).data := by
  intro h
  unfold SnakeToCamel at h
  simp only [List.mem_flatten, List.mem_map] at h
  obtain ⟨l, ⟨w, hw, hwl⟩, hdl⟩ := h
  rw [← hwl] at hdl
  exact underscore_not_mem_splitUnderscore x.data w hw
    (mem_camelWord '_' (by decide) (by decide) w hdl)

/-- Upper-casing the first character of a converted segment changes nothing. -/
theorem capitalizeFirst_camelWord (w : List Char) :
    capitalizeFirst (camelWord w) = camelWord w := by
  rcases camelWord_cases w with ⟨-, hc⟩ | ⟨-, -, hc⟩ | ⟨-, -, hc⟩
  · rw [hc]
    decide
  · rw [hc]
    cases w with
    | nil => rfl
    | cons a as =>
      show (Char.toUpper a).toUpper :: as.map Char.toUpper = _
      rw [toUpper_toUpper]
      rfl
  · rw [hc]
    cases w with
    | nil => rfl
    | cons a as =>
      show (Char.toUpper a).toUpper :: as = _
      rw [toUpper_toUpper]
      rfl

/-- Upper-casing the first character of a concatenation of converted segments
changes nothing. -/
theorem capitalizeFirst_flatten (ws : List (List Char)) :
    capitalizeFirst ((ws.map camelWord).flatten) = (ws.map camelWord).flatten := by
  induction ws with
  | nil => rfl
  | cons w ws ih =>
    have hw := capitalizeFirst_camelWord w
    simp only [List.map_cons, List.flatten_cons]
    cases hcw : camelWord w with
    | nil => simpa using ih
    | cons a as =>
      rw [hcw] at hw
      simp only [capitalizeFirst, List.cons_append] at hw ⊢
      rw [List.cons.injEq] at hw
      rw [hw.1]

/-- Converting a converted name: it is upper-cased whole if its upper case is a
common initialism, and is left as it is otherwise. -/
theorem SnakeToCamel_SnakeToCamel (x : String) :
    SnakeToCamel (SnakeToCamel x) =
      if ToUpper (SnakeToCamel x) ∈ commonInitialisms then ToUpper (SnakeToCamel x)
      else SnakeToCamel x := by
  have hsplit := splitUnderscore_of_not_mem _ (underscore_not_mem_SnakeToCamel x)
  have hcap : capitalizeFirst (SnakeToCamel x).data = (SnakeToCamel x).data :=
    capitalizeFirst_flatten (splitUnderscore x.data)
  have hconv : SnakeToCamel (SnakeToCamel x) = String.mk (camelWord (SnakeToCamel x).data) := by
    show String.mk ((splitUnderscore (SnakeToCamel x).data).map camelWord).flatten = _
    rw [hsplit]
    simp
  rw [hconv]
  rcases camelWord_cases (SnakeToCamel x).data with ⟨hw, -⟩ | ⟨-, hi, hc⟩ | ⟨-, hi, hc⟩
  · rw [hw] at hcap
    exact absurd hcap (by decide)
  · rw [if_pos hi, hc]
    rfl
  · rw [if_neg hi, hc, hcap]

/-- Upper-casing a string twice is upper-casing it once. -/
theorem ToUpper_ToUpper (s : String) : ToUpper (ToUpper s) = ToUpper s := by
  unfold ToUpper
  simp only [List.map_map]
  congr 1
  apply List.map_congr_left
  intro a _
  exact toUpper_toUpper a

/-- On letters, digits and underscores, cutting at the characters that are not
alphanumeric is cutting at the underscores. -/
theorem splitSegments_eq_splitUnderscore (l : List Char)
    (h : ∀ ch ∈ l, ch.isAlphanum = true ∨ ch = '_') :
    splitSegments l = splitUnderscore l := by
  induction l with
  | nil => rfl
  | cons c cs ih =>
    have hcs : ∀ ch ∈ cs, ch.isAlphanum = true ∨ ch = '_' := fun ch hch =>
      h ch (List.mem_cons_of_mem _ hch)
    unfold splitSegments splitUnderscore
    rw [ih hcs]
    rcases h c (List.mem_cons_self _ _) with hc | hc
    · have hne : c ≠ '_' := by
        intro he
        rw [he] at hc
        exact absurd hc (by decide)
      rw [if_pos hc, if_neg hne]
    · have hna : ¬ (c.isAlphanum = true) := by
        rw [hc]
        decide
      rw [if_neg hna, if_pos hc]

/-- Segments that are neither the exception nor an initialism are converted by
upper-casing their first character. -/
theorem map_camelWord_eq (ws : List (List Char))
    (h : ∀ w ∈ ws, w ≠ "oauth".data ∧ ToUpper (String.mk w) ∉ commonInitialisms) :
    ws.map camelWord = ws.map capitalizeFirst := by
  apply List.map_congr_left
  intro w hw
  obtain ⟨hne, hni⟩ := h w hw
  rcases camelWord_cases w with ⟨he, -⟩ | ⟨-, hi, -⟩ | ⟨-, -, hc⟩
  · exact absurd he hne
  · exact absurd hi hni
  · exact hc

/-- Prefixing `*` changes a string. -/
theorem star_append_ne (t : String) : "*" ++ t ≠ t := by
  intro h
  have hl := congrArg String.length h
  rw [String.length_append] at hl
  have h1 : "*".length = 1 := by decide
  omega

/-- Off the `USER-DEFINED` branch the `[]`-prefix test of `GoModelType` singles
out the literal `[]byte`. -/
theorem HasPrefix_GoBaseType (c : ColumnInfo) (hud : c.DataType ≠ "USER-DEFINED") :
    HasPrefix (GoBaseType c).1 "[]" = true ↔ (GoBaseType c).1 = "[]byte" := by
  have hall : ∀ t ∈ goTypeNames, HasPrefix t "[]" = true ↔ t = "[]byte" := by decide
  exact hall _ (GoBaseType_mem_goTypeNames c hud)

/-! ## Joint behaviour of the two resolvers -/

/-- `SqlBuilderColumnType` returns one of the nine tags of the code. -/
theorem SqlBuilderColumnType_mem_codeTags (c : ColumnInfo) :
    (SqlBuilderColumnType c).1 ∈ codeTags := by
  by_cases hmem : c.DataType ∈ tabulatedTypes
  · have hall : ∀ n ∈ tabulatedTypes,
        (SqlBuilderColumnType (ColumnInfo.mk "" false n "")).1 ∈ codeTags := by decide
    rw [SqlBuilderColumnType_congr]
    exact hall _ hmem
  · rw [SqlBuilderColumnType_default c hmem]
    show "String" ∈ codeTags
    decide

/-- On a tabulated type name other than `USER-DEFINED`, `GoBaseType` returns the
storage type of its row and prints nothing. -/
theorem GoBaseType_storage_row (c : ColumnInfo) (hud : c.DataType ≠ "USER-DEFINED")
    (hmem : c.DataType ∈ tabulatedTypes) :
    (c.DataType, (GoBaseType c).1) ∈ storageTable := by
  unfold GoBaseType
  split
  all_goals first
    | (rename_i heq; exact absurd heq hud)
    | (rename_i heq; rw [heq]; decide)
    | (exfalso
       rcases mem_tabulatedTypes _ hmem with
         h | h | h | h | h | h | h | h | h | h | h | h | h | h | h | h | h | h | h | h |
         h | h | h | h | h | h | h | h | h | h <;>
         exact absurd h (by assumption))

/-- Off the `USER-DEFINED` branch the storage type is `[]byte` for `bytea`
only. -/
theorem GoBaseType_eq_bytes_iff (c : ColumnInfo) (hud : c.DataType ≠ "USER-DEFINED") :
    (GoBaseType c).1 = "[]byte" ↔ c.DataType = "bytea" := by
  by_cases hmem : c.DataType ∈ tabulatedTypes
  · have hall : ∀ r ∈ storageTable, r.2 = "[]byte" ↔ r.1 = "bytea" := by decide
    exact hall _ (GoBaseType_storage_row c hud hmem)
  · rw [GoBaseType_default c hmem]
    show "string" = "[]byte" ↔ c.DataType = "bytea"
    constructor
    · intro h; exact absurd h (by decide)
    · intro h; rw [h] at hmem; exact absurd (by decide) hmem

/-- Off the `USER-DEFINED` branch the value of `GoBaseType` is a function of
`DataType` alone. -/
theorem GoBaseType_fst_congr (c d : ColumnInfo) (hdt : c.DataType = d.DataType)
    (hud : c.DataType ≠ "USER-DEFINED") : (GoBaseType c).1 = (GoBaseType d).1 := by
  by_cases hmem : c.DataType ∈ tabulatedTypes
  · have hfun : ∀ r ∈ storageTable, ∀ s ∈ storageTable, r.1 = s.1 → r.2 = s.2 := by decide
    have hc := GoBaseType_storage_row c hud hmem
    have hd := GoBaseType_storage_row d (hdt ▸ hud) (hdt ▸ hmem)
    exact hfun _ hc _ hd hdt
  · rw [GoBaseType_default c hmem, GoBaseType_default d (hdt ▸ hmem)]

/-- The value of `GoModelType`, in terms of the value of `GoBaseType`. -/
theorem GoModelType_fst (c : ColumnInfo) :
    (GoModelType c).1 =
      if (c.IsNullable && !HasPrefix (GoBaseType c).1 "[]") = true then
        "*" ++ (GoBaseType c).1
      else (GoBaseType c).1 := by
  unfold GoModelType
  dsimp only
  split <;> rfl

/-- The lines `GoModelType` prints are those of `GoBaseType`. -/
theorem GoModelType_snd (c : ColumnInfo) : (GoModelType c).2 = (GoBaseType c).2 := by
  unfold GoModelType
  dsimp only
  split <;> rfl

/-- The notice of `GoBaseType` determines the enum name it quotes. -/
theorem GoBaseType_notice_inj (dt e1 e2 : String)
    (h : "Unknown sql type: " ++ dt ++ ", " ++ e1 ++ ", using string instead for model type."
       = "Unknown sql type: " ++ dt ++ ", " ++ e2 ++ ", using string instead for model type.") :
    e1 = e2 := by
  have hd := congrArg String.data h
  simp only [String.data_append, List.append_cancel_right_eq, List.append_cancel_left_eq] at hd
  exact String.ext hd

/-! ## Claims -/

/-- C1, as stated, fails at the column `{DataType: "timestamp with time zone"}`:
the table gives the tag `TimestampWithZone`, the code returns `Timestampz`. -/
theorem SqlBuilderColumnType_spec_table_fails :
    ("timestamp with time zone", "TimestampWithZone") ∈ specBuilderTable ∧
    (SqlBuilderColumnType (ColumnInfo.mk "created_at" false "timestamp with time zone" "")).1
      = "Timestampz" ∧
    (SqlBuilderColumnType (ColumnInfo.mk "created_at" false "timestamp with time zone" "")).1
      ≠ "TimestampWithZone" := by
  decide

/-- C1, amended: for every column whose `DataType` is one of the thirty tabulated
type names, `SqlBuilderColumnType` returns the tabulated tag, the two
with-time-zone tags being spelled `Timestampz` and `Timez`. -/
theorem SqlBuilderColumnType_table (c : ColumnInfo) (n t : String)
    (hrow : (n, t) ∈ specBuilderTable) (h : c.DataType = n) :
    (SqlBuilderColumnType c).1 = codeTag t := by
  have hall : specBuilderTable.all (fun row =>
      decide ((SqlBuilderColumnType (ColumnInfo.mk "" false row.1 "")).1 = codeTag row.2))
      = true := by decide
  have := List.all_eq_true.mp hall (n, t) hrow
  rw [SqlBuilderColumnType_congr, h]
  simpa using this

/-- C1, amended, at the column `{DataType: "integer"}` and at the two
with-time-zone rows. -/
theorem SqlBuilderColumnType_table_witness :
    (SqlBuilderColumnType (ColumnInfo.mk "id" false "integer" "")).1 = "Integer" ∧
    (SqlBuilderColumnType (ColumnInfo.mk "at" true "timestamp with time zone" "")).1
      = "Timestampz" ∧
    (SqlBuilderColumnType (ColumnInfo.mk "at" true "time with time zone" "")).1 = "Timez" :=
  ⟨SqlBuilderColumnType_table (ColumnInfo.mk "id" false "integer" "") "integer" "Integer"
      (by decide) rfl,
   SqlBuilderColumnType_table (ColumnInfo.mk "at" true "timestamp with time zone" "")
      "timestamp with time zone" "TimestampWithZone" (by decide) rfl,
   SqlBuilderColumnType_table (ColumnInfo.mk "at" true "time with time zone" "")
      "time with time zone" "TimeWithZone" (by decide) rfl⟩

/-- C2: for every column whose `DataType` is a tabulated type name other than
`USER-DEFINED`, `GoBaseType` returns the tabulated storage type, whatever
`Name`, `IsNullable` and `EnumName` are. -/
theorem GoBaseType_table (c : ColumnInfo) (n t : String)
    (hrow : (n, t) ∈ storageTable) (h : c.DataType = n) :
    (GoBaseType c).1 = t := by
  simp only [storageTable, List.mem_cons, Prod.mk.injEq, List.mem_singleton,
    List.mem_nil_iff, or_false] at hrow
  rcases hrow with ⟨rfl, rfl⟩ | ⟨rfl, rfl⟩ | ⟨rfl, rfl⟩ | ⟨rfl, rfl⟩ | ⟨rfl, rfl⟩ | ⟨rfl, rfl⟩ | ⟨rfl, rfl⟩ | ⟨rfl, rfl⟩ | ⟨rfl, rfl⟩ | ⟨rfl, rfl⟩ | ⟨rfl, rfl⟩ | ⟨rfl, rfl⟩ | ⟨rfl, rfl⟩ | ⟨rfl, rfl⟩ | ⟨rfl, rfl⟩ | ⟨rfl, rfl⟩ | ⟨rfl, rfl⟩ | ⟨rfl, rfl⟩ | ⟨rfl, rfl⟩ | ⟨rfl, rfl⟩ | ⟨rfl, rfl⟩ | ⟨rfl, rfl⟩ | ⟨rfl, rfl⟩ | ⟨rfl, rfl⟩ | ⟨rfl, rfl⟩ | ⟨rfl, rfl⟩ | ⟨rfl, rfl⟩ | ⟨rfl, rfl⟩ | ⟨rfl, rfl⟩ <;>
    simp [GoBaseType, h]

/-- C2 at the column `{DataType: "integer"}` with an enum name that plays no
part. -/
theorem GoBaseType_table_witness :
    (GoBaseType (ColumnInfo.mk "id" true "integer" "order_status")).1 = "int32" :=
  GoBaseType_table (ColumnInfo.mk "id" true "integer" "order_status") "integer" "int32"
    (by decide) rfl

/-- C3: for every column whose `DataType` is not one of the tabulated type names,
`SqlBuilderColumnType` returns `String` and `GoBaseType` returns `string`;
matching is case-sensitive, so `hstore`, `BOOLEAN`, `array` and `user-defined`
are all unrecognized. -/
theorem unrecognized_fallback (c : ColumnInfo) (h : c.DataType ∉ tabulatedTypes) :
    ((SqlBuilderColumnType c).1 = "String" ∧ (GoBaseType c).1 = "string") ∧
    "hstore" ∉ tabulatedTypes ∧ "BOOLEAN" ∉ tabulatedTypes ∧
    "array" ∉ tabulatedTypes ∧ "user-defined" ∉ tabulatedTypes := by
  refine ⟨⟨?_, ?_⟩, by decide, by decide, by decide, by decide⟩
  · rw [SqlBuilderColumnType_default c h]
  · rw [GoBaseType_default c h]

/-- C3 at the column `{DataType: "hstore"}`. -/
theorem unrecognized_fallback_witness :
    (SqlBuilderColumnType (ColumnInfo.mk "attrs" false "hstore" "hstore")).1 = "String" ∧
    (GoBaseType (ColumnInfo.mk "attrs" false "hstore" "hstore")).1 = "string" :=
  (unrecognized_fallback (ColumnInfo.mk "attrs" false "hstore" "hstore") (by decide)).1

/-- C4, as stated, fails at a nullable `USER-DEFINED` column whose enum name is
`[]x`: `GoBaseType` is `[]x`, which is not `[]byte`, and `GoModelType` returns it
without the leading `*`. -/
theorem GoModelType_decorated_fails :
    (ColumnInfo.mk "tags" true "USER-DEFINED" "[]x").IsNullable = true ∧
    (GoBaseType (ColumnInfo.mk "tags" true "USER-DEFINED" "[]x")).1 = "[]x" ∧
    (GoBaseType (ColumnInfo.mk "tags" true "USER-DEFINED" "[]x")).1 ≠ "[]byte" ∧
    (GoModelType (ColumnInfo.mk "tags" true "USER-DEFINED" "[]x")).1 = "[]x" ∧
    (GoModelType (ColumnInfo.mk "tags" true "USER-DEFINED" "[]x")).1
      ≠ "*" ++ (GoBaseType (ColumnInfo.mk "tags" true "USER-DEFINED" "[]x")).1 := by
  decide

/-- C4, amended: for every column, `GoModelType` is `*` followed by `GoBaseType`
exactly when `IsNullable` is true and `GoBaseType` does not begin with `[]`, and
is `GoBaseType` unchanged in every other case; for a column whose `DataType` is
not `USER-DEFINED`, `GoBaseType` begins with `[]` exactly when it is the
byte-sequence type `[]byte`. -/
theorem GoModelType_decorated_iff (c : ColumnInfo) :
    (GoModelType c).1 =
      (if c.IsNullable = true ∧ HasPrefix (GoBaseType c).1 "[]" = false then
        "*" ++ (GoBaseType c).1
       else (GoBaseType c).1) ∧
    ((GoModelType c).1 = "*" ++ (GoBaseType c).1 ↔
      (c.IsNullable = true ∧ HasPrefix (GoBaseType c).1 "[]" = false)) ∧
    (c.DataType ≠ "USER-DEFINED" →
      (HasPrefix (GoBaseType c).1 "[]" = false ↔ (GoBaseType c).1 ≠ "[]byte")) := by
  have hval : (GoModelType c).1 =
      (if c.IsNullable = true ∧ HasPrefix (GoBaseType c).1 "[]" = false then
        "*" ++ (GoBaseType c).1
       else (GoBaseType c).1) := by
    rw [GoModelType_fst]
    by_cases hn : c.IsNullable = true
    · cases hpre : HasPrefix (GoBaseType c).1 "[]" <;> simp [hn]
    · simp [hn]
  refine ⟨hval, ?_, ?_⟩
  · rw [hval]
    by_cases hcond : c.IsNullable = true ∧ HasPrefix (GoBaseType c).1 "[]" = false
    · rw [if_pos hcond]
      exact ⟨fun _ => hcond, fun _ => rfl⟩
    · rw [if_neg hcond]
      constructor
      · intro h; exact absurd h.symm (star_append_ne _)
      · intro h; exact absurd h hcond
  · intro hud
    have hp := HasPrefix_GoBaseType c hud
    constructor
    · intro hf hb
      rw [hp.mpr hb] at hf
      cases hf
    · intro hb
      cases hpre : HasPrefix (GoBaseType c).1 "[]" with
      | false => rfl
      | true => exact absurd (hp.mp hpre) hb

/-- C4, amended, at a nullable `character varying` column and at a nullable
`bytea` column. -/
theorem GoModelType_decorated_iff_witness :
    (GoModelType (ColumnInfo.mk "title" true "character varying" "varchar")).1 = "*string" ∧
    (GoModelType (ColumnInfo.mk "blob" true "bytea" "bytea")).1 = "[]byte" :=
  ⟨(GoModelType_decorated_iff
      (ColumnInfo.mk "title" true "character varying" "varchar")).1.trans (by decide),
   (GoModelType_decorated_iff (ColumnInfo.mk "blob" true "bytea" "bytea")).1.trans
      (by decide)⟩

/-- C5: for every column with `DataType` `bytea`, `GoModelType` returns the
undecorated `[]byte`, whether `IsNullable` is true or false. -/
theorem GoModelType_bytea (c : ColumnInfo) (h : c.DataType = "bytea") :
    (GoModelType c).1 = "[]byte" := by
  have hb : GoBaseType c = ("[]byte", []) := by simp [GoBaseType, h]
  have hp : HasPrefix "[]byte" "[]" = true := by decide
  unfold GoModelType
  dsimp only
  rw [hb]
  simp [hp]

/-- C5 at a nullable and at a non-nullable `bytea` column. -/
theorem GoModelType_bytea_witness :
    (GoModelType (ColumnInfo.mk "payload" true "bytea" "bytea")).1 = "[]byte" ∧
    (GoModelType (ColumnInfo.mk "payload" false "bytea" "bytea")).1 = "[]byte" :=
  ⟨GoModelType_bytea (ColumnInfo.mk "payload" true "bytea" "bytea") rfl,
   GoModelType_bytea (ColumnInfo.mk "payload" false "bytea" "bytea") rfl⟩

/-- C6: for every column, `GoModelTag false` is the empty string and
`GoModelTag true` is the single-keyword annotation around `primary_key`; the
result does not depend on the column. -/
theorem GoModelTag_spec (c : ColumnInfo) :
    GoModelTag c false = "" ∧
    GoModelTag c true = "`sql:\"primary_key\"`" ∧
    ∀ (d : ColumnInfo) (isPrimaryKey : Bool),
      GoModelTag c isPrimaryKey = GoModelTag d isPrimaryKey :=
  ⟨rfl, rfl, fun _ _ => rfl⟩

/-- C7: a call of `SqlBuilderColumnType`, and likewise of `GoBaseType`, prints
nothing when `DataType` is tabulated and exactly one line when it is not; that
line contains the unrecognized `DataType` and names the fallback `string`, and
the call still returns its fallback value. -/
theorem diagnostics_spec (c : ColumnInfo) :
    (c.DataType ∈ tabulatedTypes →
      (SqlBuilderColumnType c).2 = [] ∧ (GoBaseType c).2 = []) ∧
    (c.DataType ∉ tabulatedTypes →
      (∃ notice, SqlBuilderColumnType c = ("String", [notice]) ∧
        Contains notice c.DataType ∧ Contains notice "string") ∧
      (∃ notice, GoBaseType c = ("string", [notice]) ∧
        Contains notice c.DataType ∧ Contains notice "string")) := by
  refine ⟨fun h => ⟨SqlBuilderColumnType_silent c h, GoBaseType_silent c h⟩, fun h => ⟨?_, ?_⟩⟩
  · refine ⟨_, SqlBuilderColumnType_default c h, ?_, ?_⟩
    · exact ⟨"Unknown sql type: ".data,
        ", using string column instead for sql builder.".data, by simp⟩
    · exact ⟨"Unknown sql type: ".data ++ c.DataType.data ++ ", using ".data,
        " column instead for sql builder.".data, by simp⟩
  · refine ⟨_, GoBaseType_default c h, ?_, ?_⟩
    · exact ⟨"Unknown sql type: ".data,
        ", ".data ++ c.EnumName.data ++ ", using string instead for model type.".data,
        by simp⟩
    · exact ⟨"Unknown sql type: ".data ++ c.DataType.data ++ ", ".data ++ c.EnumName.data
          ++ ", using ".data,
        " instead for model type.".data, by simp⟩

/-- C7 at the unrecognized type `hstore` and at the tabulated type `integer`. -/
theorem diagnostics_spec_witness :
    (SqlBuilderColumnType (ColumnInfo.mk "attrs" false "hstore" "hstore")).2.length = 1 ∧
    (GoBaseType (ColumnInfo.mk "attrs" false "hstore" "hstore")).2.length = 1 ∧
    (SqlBuilderColumnType (ColumnInfo.mk "id" false "integer" "int4")).2 = [] ∧
    (GoBaseType (ColumnInfo.mk "id" false "integer" "int4")).2 = [] := by
  have hu := (diagnostics_spec (ColumnInfo.mk "attrs" false "hstore" "hstore")).2 (by decide)
  have hk := (diagnostics_spec (ColumnInfo.mk "id" false "integer" "int4")).1 (by decide)
  obtain ⟨⟨n1, h1, -, -⟩, ⟨n2, h2, -, -⟩⟩ := hu
  exact ⟨by rw [h1]; rfl, by rw [h2]; rfl, hk.1, hk.2⟩

/-- C8: for every column with `DataType` `USER-DEFINED`, `GoBaseType` returns the
camel-case conversion of `EnumName` and `SqlBuilderColumnType` returns `String`;
the enum name `order_status` gives the storage type `OrderStatus`. -/
theorem userDefined_spec (c : ColumnInfo) (h : c.DataType = "USER-DEFINED") :
    ((GoBaseType c).1 = SnakeToCamel c.EnumName ∧ (SqlBuilderColumnType c).1 = "String") ∧
    SnakeToCamel "order_status" = "OrderStatus" := by
  refine ⟨⟨?_, ?_⟩, by decide⟩
  · rw [GoBaseType_userDefined c h]
  · simp [SqlBuilderColumnType, h]

/-- C8 at the column `{DataType: "USER-DEFINED", EnumName: "order_status",
IsNullable: false}`. -/
theorem userDefined_spec_witness :
    (GoBaseType (ColumnInfo.mk "status" false "USER-DEFINED" "order_status")).1
      = "OrderStatus" ∧
    (SqlBuilderColumnType (ColumnInfo.mk "status" false "USER-DEFINED" "order_status")).1
      = "String" := by
  have h := userDefined_spec (ColumnInfo.mk "status" false "USER-DEFINED" "order_status") rfl
  exact ⟨h.1.1.trans h.2, h.1.2⟩

/-- C9, as stated, fails at the identifier `ht_tp`: it converts to `HtTp`, and
`HtTp` converts to `HTTP`, because its upper case is a common initialism. -/
theorem SnakeToCamel_idempotent_fails :
    SnakeToCamel "ht_tp" = "HtTp" ∧
    SnakeToCamel (SnakeToCamel "ht_tp") = "HTTP" ∧
    SnakeToCamel (SnakeToCamel "ht_tp") ≠ SnakeToCamel "ht_tp" ∧
    (GoBaseType (ColumnInfo.mk "proto" false "USER-DEFINED"
      (GoBaseType (ColumnInfo.mk "proto" false "USER-DEFINED" "ht_tp")).1)).1
      ≠ (GoBaseType (ColumnInfo.mk "proto" false "USER-DEFINED" "ht_tp")).1 := by
  decide

/-- C9, amended: for an ASCII identifier, converting the converted name changes
nothing whenever the upper case of the converted name is not a common
initialism, as a function on strings and as the storage type of a `USER-DEFINED`
column; in every case a third conversion changes nothing. -/
theorem SnakeToCamel_idempotent (x : String) :
    (asciiOnly x = true → ToUpper (SnakeToCamel x) ∉ commonInitialisms →
      SnakeToCamel (SnakeToCamel x) = SnakeToCamel x ∧
      ∀ (name : String) (nullable : Bool),
        (GoBaseType (ColumnInfo.mk name nullable "USER-DEFINED"
          (GoBaseType (ColumnInfo.mk name nullable "USER-DEFINED" x)).1)).1
        = (GoBaseType (ColumnInfo.mk name nullable "USER-DEFINED" x)).1) ∧
    SnakeToCamel (SnakeToCamel (SnakeToCamel x)) = SnakeToCamel (SnakeToCamel x) := by
  constructor
  · intro _ hni
    have hid : SnakeToCamel (SnakeToCamel x) = SnakeToCamel x := by
      rw [SnakeToCamel_SnakeToCamel, if_neg hni]
    refine ⟨hid, fun name nullable => ?_⟩
    rw [GoBaseType_userDefined _ rfl, GoBaseType_userDefined _ rfl]
    exact hid
  · by_cases hi : ToUpper (SnakeToCamel x) ∈ commonInitialisms
    · have h2 : SnakeToCamel (SnakeToCamel x) = ToUpper (SnakeToCamel x) := by
        rw [SnakeToCamel_SnakeToCamel, if_pos hi]
      have hi2 : ToUpper (SnakeToCamel (SnakeToCamel x)) ∈ commonInitialisms := by
        rw [h2, ToUpper_ToUpper]
        exact hi
      rw [SnakeToCamel_SnakeToCamel (SnakeToCamel x), if_pos hi2, h2, ToUpper_ToUpper]
    · have h2 : SnakeToCamel (SnakeToCamel x) = SnakeToCamel x := by
        rw [SnakeToCamel_SnakeToCamel, if_neg hi]
      rw [h2, h2]

/-- C9, amended, at the identifier `user_status`. -/
theorem SnakeToCamel_idempotent_witness :
    SnakeToCamel (SnakeToCamel "user_status") = SnakeToCamel "user_status" :=
  ((SnakeToCamel_idempotent "user_status").1 (by decide) (by decide)).1

/-- C10, as stated, fails at the enum names `user_id` and `order-status`: the
storage types are `UserID` and `Order-status`, where the rule of §4.1 gives
`UserId` and `OrderStatus`. -/
theorem GoBaseType_userDefined_rule_fails :
    (GoBaseType (ColumnInfo.mk "owner" true "USER-DEFINED" "user_id")).1 = "UserID" ∧
    camelizeRule "user_id" = "UserId" ∧
    (GoBaseType (ColumnInfo.mk "state" true "USER-DEFINED" "order-status")).1
      = "Order-status" ∧
    camelizeRule "order-status" = "OrderStatus" := by
  decide

/-- C10, amended: for every `USER-DEFINED` column whose enum name is made of
ASCII letters, digits and underscores, and none of whose underscore-separated
segments is the exception `oauth` or has a common initialism as its upper case,
the storage type is the enum name converted by the rule of §4.1: split on the
separators, upper-case the first letter of each segment, concatenate, leave the
rest untouched. -/
theorem GoBaseType_userDefined_eq_rule (c : ColumnInfo) (h : c.DataType = "USER-DEFINED")
    (hchars : ∀ ch ∈ c.EnumName.data, ch.isAlphanum = true ∨ ch = '_')
    (hwords : ∀ w ∈ splitUnderscore c.EnumName.data,
      w ≠ "oauth".data ∧ ToUpper (String.mk w) ∉ commonInitialisms) :
    (GoBaseType c).1 = camelizeRule c.EnumName := by
  rw [GoBaseType_userDefined c h]
  show String.mk ((splitUnderscore c.EnumName.data).map camelWord).flatten =
    String.mk ((splitSegments c.EnumName.data).map capitalizeFirst).flatten
  rw [splitSegments_eq_splitUnderscore _ hchars, map_camelWord_eq _ hwords]

/-- C10, amended, at the enum name `user_status`. -/
theorem GoBaseType_userDefined_eq_rule_witness :
    (GoBaseType (ColumnInfo.mk "state" true "USER-DEFINED" "user_status")).1
      = "UserStatus" :=
  (GoBaseType_userDefined_eq_rule (ColumnInfo.mk "state" true "USER-DEFINED" "user_status")
    rfl (by decide) (by decide)).trans (by decide)

/-- C11: the name conversion gives `UserStatus` for `user_status`, `Status` for
the single segment `status` and the empty string for the empty string, and so
does `GoBaseType` on a `USER-DEFINED` column with these enum names. -/
theorem SnakeToCamel_examples :
    (SnakeToCamel "user_status" = "UserStatus" ∧ SnakeToCamel "status" = "Status" ∧
      SnakeToCamel "" = "") ∧
    ∀ (name : String) (nullable : Bool),
      (GoBaseType (ColumnInfo.mk name nullable "USER-DEFINED" "user_status")).1
        = "UserStatus" ∧
      (GoBaseType (ColumnInfo.mk name nullable "USER-DEFINED" "status")).1 = "Status" ∧
      (GoBaseType (ColumnInfo.mk name nullable "USER-DEFINED" "")).1 = "" := by
  have h1 : SnakeToCamel "user_status" = "UserStatus" := by decide
  have h2 : SnakeToCamel "status" = "Status" := by decide
  have h3 : SnakeToCamel "" = "" := by decide
  refine ⟨⟨h1, h2, h3⟩, fun name nullable => ⟨?_, ?_, ?_⟩⟩
  · rw [GoBaseType_userDefined _ rfl]; exact h1
  · rw [GoBaseType_userDefined _ rfl]; exact h2
  · rw [GoBaseType_userDefined _ rfl]; exact h3

/-- C12, as stated, fails at a `USER-DEFINED` column whose enum name is `a`, a
line break, `b`: the line break is copied into the results of `GoBaseType` and
`GoModelType`. -/
theorem results_newline_fails :
    (GoBaseType (ColumnInfo.mk "kind" true "USER-DEFINED"
      (String.mk ['a', newline, 'b']))).1 = String.mk ['A', newline, 'b'] ∧
    newline ∈ (GoBaseType (ColumnInfo.mk "kind" true "USER-DEFINED"
      (String.mk ['a', newline, 'b']))).1.data ∧
    newline ∈ (GoModelType (ColumnInfo.mk "kind" true "USER-DEFINED"
      (String.mk ['a', newline, 'b']))).1.data := by
  decide

/-- C12, amended: for every column and every `isPrimaryKey`, the results of
`SqlBuilderColumnType` and `GoModelTag` contain no newline character; the result
of `GoModelType` contains one exactly when that of `GoBaseType` does; the result
of `GoBaseType` contains none when `DataType` is not `USER-DEFINED`, and when it
is `USER-DEFINED` it contains one exactly when `EnumName` does. -/
theorem results_no_newline (c : ColumnInfo) (isPrimaryKey : Bool) :
    newline ∉ (SqlBuilderColumnType c).1.data ∧
    newline ∉ (GoModelTag c isPrimaryKey).data ∧
    (newline ∈ (GoModelType c).1.data ↔ newline ∈ (GoBaseType c).1.data) ∧
    (c.DataType ≠ "USER-DEFINED" → newline ∉ (GoBaseType c).1.data) ∧
    (c.DataType = "USER-DEFINED" →
      (newline ∈ (GoBaseType c).1.data ↔ newline ∈ c.EnumName.data)) := by
  refine ⟨?_, ?_, ?_, ?_, ?_⟩
  · have hall : ∀ t ∈ codeTags, newline ∉ t.data := by decide
    exact hall _ (SqlBuilderColumnType_mem_codeTags c)
  · cases isPrimaryKey
    · have h0 : GoModelTag c false = "" := rfl
      rw [h0]
      decide
    · have h1 : GoModelTag c true = "`sql:\"primary_key\"`" := rfl
      rw [h1]
      decide
  · rw [GoModelType_fst]
    split
    · rw [String.data_append]
      constructor
      · intro h
        rcases List.mem_append.mp h with h | h
        · exact absurd h (by decide)
        · exact h
      · intro h
        exact List.mem_append.mpr (Or.inr h)
    · exact Iff.rfl
  · intro hud
    have hall : ∀ t ∈ goTypeNames, newline ∉ t.data := by decide
    exact hall _ (GoBaseType_mem_goTypeNames c hud)
  · intro hud
    rw [GoBaseType_userDefined c hud]
    exact newline_mem_SnakeToCamel c.EnumName

/-- C12, amended, at a nullable `USER-DEFINED` column with the enum name
`order_status` and at a nullable `text` column. -/
theorem results_no_newline_witness :
    newline ∉ (GoModelType (ColumnInfo.mk "state" true "USER-DEFINED" "order_status")).1.data ∧
    newline ∉ (GoModelType (ColumnInfo.mk "body" true "text" "text")).1.data := by
  have hu := results_no_newline (ColumnInfo.mk "state" true "USER-DEFINED" "order_status") false
  have ht := results_no_newline (ColumnInfo.mk "body" true "text" "text") false
  refine ⟨fun h => ?_, fun h => ?_⟩
  · exact absurd ((hu.2.2.2.2 rfl).mp (hu.2.2.1.mp h)) (by decide)
  · exact ht.2.2.2.1 (by decide) (ht.2.2.1.mp h)

/-- C13, as stated, fails at two `hstore` columns that differ in `EnumName` only:
the line printed by `GoBaseType` quotes the enum name. -/
theorem enumName_ignored_fails :
    (ColumnInfo.mk "attrs" false "hstore" "hstore").DataType ≠ "USER-DEFINED" ∧
    (GoBaseType (ColumnInfo.mk "attrs" false "hstore" "hstore")).2
      = ["Unknown sql type: hstore, hstore, using string instead for model type."] ∧
    (GoBaseType (ColumnInfo.mk "attrs" false "hstore" "citext")).2
      = ["Unknown sql type: hstore, citext, using string instead for model type."] ∧
    GoBaseType (ColumnInfo.mk "attrs" false "hstore" "hstore")
      ≠ GoBaseType (ColumnInfo.mk "attrs" false "hstore" "citext") ∧
    GoModelType (ColumnInfo.mk "attrs" false "hstore" "hstore")
      ≠ GoModelType (ColumnInfo.mk "attrs" false "hstore" "citext") := by
  decide

/-- C13, amended: two columns with the same `DataType` other than `USER-DEFINED`,
the same `Name` and `IsNullable`, that differ in `EnumName` only, get the same
returned values from the four methods and the same output from
`SqlBuilderColumnType`; when `DataType` is tabulated `GoBaseType` and
`GoModelType` print nothing for either; when it is not, their notice quotes
`EnumName`, and the two notices are equal only if the enum names are. -/
theorem enumName_ignored (c d : ColumnInfo) (isPrimaryKey : Bool)
    (hdt : c.DataType = d.DataType) (hud : c.DataType ≠ "USER-DEFINED")
    (_hname : c.Name = d.Name) (hnull : c.IsNullable = d.IsNullable) :
    SqlBuilderColumnType c = SqlBuilderColumnType d ∧
    GoModelTag c isPrimaryKey = GoModelTag d isPrimaryKey ∧
    (GoBaseType c).1 = (GoBaseType d).1 ∧
    (GoModelType c).1 = (GoModelType d).1 ∧
    (c.DataType ∈ tabulatedTypes →
      (GoBaseType c).2 = [] ∧ (GoBaseType d).2 = [] ∧
      (GoModelType c).2 = [] ∧ (GoModelType d).2 = []) ∧
    (c.DataType ∉ tabulatedTypes →
      ((GoBaseType c).2 = (GoBaseType d).2 ↔ c.EnumName = d.EnumName) ∧
      ((GoModelType c).2 = (GoModelType d).2 ↔ c.EnumName = d.EnumName)) := by
  have hbase : (GoBaseType c).1 = (GoBaseType d).1 := GoBaseType_fst_congr c d hdt hud
  have hprint : c.DataType ∉ tabulatedTypes →
      ((GoBaseType c).2 = (GoBaseType d).2 ↔ c.EnumName = d.EnumName) := by
    intro hmem
    rw [GoBaseType_default c hmem, GoBaseType_default d (hdt ▸ hmem), ← hdt]
    constructor
    · intro h
      exact GoBaseType_notice_inj c.DataType _ _ (List.singleton_inj.mp h)
    · intro h
      show [_] = [_]
      rw [h]
  refine ⟨?_, rfl, hbase, ?_, ?_, ?_⟩
  · rw [SqlBuilderColumnType_congr c, SqlBuilderColumnType_congr d, hdt]
  · rw [GoModelType_fst, GoModelType_fst, hbase, hnull]
  · intro hmem
    have h1 := GoBaseType_silent c hmem
    have h2 := GoBaseType_silent d (hdt ▸ hmem)
    exact ⟨h1, h2, (GoModelType_snd c).trans h1, (GoModelType_snd d).trans h2⟩
  · intro hmem
    refine ⟨hprint hmem, ?_⟩
    rw [GoModelType_snd, GoModelType_snd]
    exact hprint hmem

/-- C13, amended, at two `integer` columns and at two `hstore` columns that
differ in `EnumName` only. -/
theorem enumName_ignored_witness :
    GoBaseType (ColumnInfo.mk "id" true "integer" "int4")
      = GoBaseType (ColumnInfo.mk "id" true "integer" "serial") ∧
    (GoModelType (ColumnInfo.mk "attrs" true "hstore" "hstore")).1
      = (GoModelType (ColumnInfo.mk "attrs" true "hstore" "citext")).1 := by
  have hk := enumName_ignored (ColumnInfo.mk "id" true "integer" "int4")
    (ColumnInfo.mk "id" true "integer" "serial") true rfl (by decide) rfl rfl
  have hu := enumName_ignored (ColumnInfo.mk "attrs" true "hstore" "hstore")
    (ColumnInfo.mk "attrs" true "hstore" "citext") false rfl (by decide) rfl rfl
  have hs := hk.2.2.2.2.1 (by decide)
  exact ⟨Prod.ext hk.2.2.1 (hs.1.trans hs.2.1.symm), hu.2.2.2.1⟩

/-- C14, as stated, fails at the column `{DataType: "time with time zone"}`: the
returned tag `Timez` is not one of the nine tags as the specification spells
them. -/
theorem SqlBuilderColumnType_not_in_specTags :
    (SqlBuilderColumnType (ColumnInfo.mk "opens" false "time with time zone" "")).1
      = "Timez" ∧
    (SqlBuilderColumnType (ColumnInfo.mk "opens" false "time with time zone" "")).1
      ∉ specTags := by
  decide

/-- C14, amended: the three resolvers return a value for every column, the empty
`DataType` and `EnumName` included: `SqlBuilderColumnType` returns one of the
nine tags `Bool`, `Integer`, `Date`, `Timestamp`, `Timestampz`, `Time`, `Timez`,
`Float`, `String`; `GoBaseType` returns one of its ten literals or the converted
enum name; `GoModelType` returns that value, with or without a leading `*`. -/
theorem resolvers_total (c : ColumnInfo) :
    (SqlBuilderColumnType c).1 ∈
      ["Bool", "Integer", "Date", "Timestamp", "Timestampz", "Time", "Timez", "Float",
       "String"] ∧
    ((GoBaseType c).1 ∈ goTypeNames ∨
      (c.DataType = "USER-DEFINED" ∧ (GoBaseType c).1 = SnakeToCamel c.EnumName)) ∧
    ((GoModelType c).1 = (GoBaseType c).1 ∨ (GoModelType c).1 = "*" ++ (GoBaseType c).1) ∧
    ((SqlBuilderColumnType (ColumnInfo.mk "" true "" "")).1 = "String" ∧
      (GoBaseType (ColumnInfo.mk "" true "" "")).1 = "string" ∧
      (GoModelType (ColumnInfo.mk "" true "" "")).1 = "*string" ∧
      (GoBaseType (ColumnInfo.mk "" true "USER-DEFINED" "")).1 = "") := by
  refine ⟨?_, ?_, ?_, by decide⟩
  · have hsame : codeTags =
        ["Bool", "Integer", "Date", "Timestamp", "Timestampz", "Time", "Timez", "Float",
         "String"] := by decide
    rw [← hsame]
    exact SqlBuilderColumnType_mem_codeTags c
  · by_cases hud : c.DataType = "USER-DEFINED"
    · right
      refine ⟨hud, ?_⟩
      rw [GoBaseType_userDefined c hud]
    · exact Or.inl (GoBaseType_mem_goTypeNames c hud)
  · rw [GoModelType_fst]
    split
    · exact Or.inr rfl
    · exact Or.inl rfl

/-- C15: for every column with `DataType` other than `USER-DEFINED`, tabulated or
not, `GoModelType` is `*` followed by `GoBaseType` if `IsNullable` is true and
`DataType` is not `bytea`, and is `GoBaseType` otherwise. -/
theorem GoModelType_nonEnum (c : ColumnInfo) (hud : c.DataType ≠ "USER-DEFINED") :
    (GoModelType c).1 =
      if c.IsNullable = true ∧ c.DataType ≠ "bytea" then "*" ++ (GoBaseType c).1
      else (GoBaseType c).1 := by
  have hp := HasPrefix_GoBaseType c hud
  have hb := GoBaseType_eq_bytes_iff c hud
  rw [GoModelType_fst]
  by_cases hn : c.IsNullable = true
  · by_cases hd : c.DataType = "bytea"
    · have hpre : HasPrefix (GoBaseType c).1 "[]" = true := hp.mpr (hb.mpr hd)
      rw [hn, hpre]
      simp [hd]
    · have hpre : HasPrefix (GoBaseType c).1 "[]" = false := by
        cases hpre : HasPrefix (GoBaseType c).1 "[]" with
        | false => rfl
        | true => exact absurd (hb.mp (hp.mp hpre)) hd
      rw [hn, hpre]
      simp [hd]
  · simp [hn]

/-- C15 at a nullable `text` column, a nullable `bytea` column and a nullable
column of the unrecognized type `hstore`. -/
theorem GoModelType_nonEnum_witness :
    (GoModelType (ColumnInfo.mk "body" true "text" "text")).1 = "*string" ∧
    (GoModelType (ColumnInfo.mk "blob" true "bytea" "bytea")).1 = "[]byte" ∧
    (GoModelType (ColumnInfo.mk "attrs" true "hstore" "hstore")).1 = "*string" :=
  ⟨(GoModelType_nonEnum (ColumnInfo.mk "body" true "text" "text") (by decide)).trans
      (by decide),
   (GoModelType_nonEnum (ColumnInfo.mk "blob" true "bytea" "bytea") (by decide)).trans
      (by decide),
   (GoModelType_nonEnum (ColumnInfo.mk "attrs" true "hstore" "hstore") (by decide)).trans
      (by decide)⟩

/-- C16: the two resolvers recognize the same type names: `SqlBuilderColumnType`
takes its default branch, the only one that prints, exactly when `GoBaseType`
takes its own, and that is exactly when `DataType` is not tabulated. -/
theorem default_branches_agree (c : ColumnInfo) :
    ((SqlBuilderColumnType c).2 ≠ [] ↔ (GoBaseType c).2 ≠ []) ∧
    ((SqlBuilderColumnType c).2 ≠ [] ↔ c.DataType ∉ tabulatedTypes) ∧
    ((GoBaseType c).2 ≠ [] ↔ c.DataType ∉ tabulatedTypes) := by
  by_cases hmem : c.DataType ∈ tabulatedTypes
  · have h1 := SqlBuilderColumnType_silent c hmem
    have h2 := GoBaseType_silent c hmem
    simp [h1, h2, hmem]
  · have h1 : (SqlBuilderColumnType c).2 ≠ [] := by
      rw [SqlBuilderColumnType_default c hmem]
      exact List.cons_ne_nil _ _
    have h2 : (GoBaseType c).2 ≠ [] := by
      rw [GoBaseType_default c hmem]
      exact List.cons_ne_nil _ _
    exact ⟨⟨fun _ => h2, fun _ => h1⟩, ⟨fun _ => hmem, fun _ => h1⟩,
      ⟨fun _ => hmem, fun _ => h2⟩⟩

/-- C17: for every column with `DataType` other than `USER-DEFINED` the builder
tag and the storage type agree: `Bool` with `bool`; `Integer` with `int16`,
`int32`, `int64`; `Float` with `float32`, `float64`; the five date and time tags
with `time.Time`; `String` with `string`, `[]byte`, `uuid.UUID`. -/
theorem tag_storage_consistent (c : ColumnInfo) (hud : c.DataType ≠ "USER-DEFINED") :
    ((SqlBuilderColumnType c).1 = "Bool" ↔ (GoBaseType c).1 = "bool") ∧
    ((SqlBuilderColumnType c).1 = "Integer" ↔
      (GoBaseType c).1 ∈ ["int16", "int32", "int64"]) ∧
    ((SqlBuilderColumnType c).1 = "Float" ↔ (GoBaseType c).1 ∈ ["float32", "float64"]) ∧
    ((SqlBuilderColumnType c).1 ∈ ["Date", "Timestamp", "Timestampz", "Time", "Timez"] ↔
      (GoBaseType c).1 = "time.Time") ∧
    ((SqlBuilderColumnType c).1 = "String" ↔
      (GoBaseType c).1 ∈ ["string", "[]byte", "uuid.UUID"]) := by
  by_cases hmem : c.DataType ∈ tabulatedTypes
  · have hall : ∀ r ∈ storageTable,
        ((SqlBuilderColumnType (ColumnInfo.mk "" false r.1 "")).1 = "Bool" ↔ r.2 = "bool") ∧
        ((SqlBuilderColumnType (ColumnInfo.mk "" false r.1 "")).1 = "Integer" ↔
          r.2 ∈ ["int16", "int32", "int64"]) ∧
        ((SqlBuilderColumnType (ColumnInfo.mk "" false r.1 "")).1 = "Float" ↔
          r.2 ∈ ["float32", "float64"]) ∧
        ((SqlBuilderColumnType (ColumnInfo.mk "" false r.1 "")).1 ∈
            ["Date", "Timestamp", "Timestampz", "Time", "Timez"] ↔ r.2 = "time.Time") ∧
        ((SqlBuilderColumnType (ColumnInfo.mk "" false r.1 "")).1 = "String" ↔
          r.2 ∈ ["string", "[]byte", "uuid.UUID"]) := by
      decide
    rw [SqlBuilderColumnType_congr]
    exact hall _ (GoBaseType_storage_row c hud hmem)
  · rw [SqlBuilderColumnType_default c hmem, GoBaseType_default c hmem]
    show ("String" = "Bool" ↔ "string" = "bool") ∧
      ("String" = "Integer" ↔ "string" ∈ ["int16", "int32", "int64"]) ∧
      ("String" = "Float" ↔ "string" ∈ ["float32", "float64"]) ∧
      ("String" ∈ ["Date", "Timestamp", "Timestampz", "Time", "Timez"] ↔
        "string" = "time.Time") ∧
      ("String" = "String" ↔ "string" ∈ ["string", "[]byte", "uuid.UUID"])
    decide

/-- C17 at the column `{DataType: "smallint"}`. -/
theorem tag_storage_consistent_witness :
    (SqlBuilderColumnType (ColumnInfo.mk "n" false "smallint" "int2")).1 = "Integer" ∧
    (GoBaseType (ColumnInfo.mk "n" false "smallint" "int2")).1 ∈ ["int16", "int32", "int64"] :=
  ⟨by decide,
   (tag_storage_consistent (ColumnInfo.mk "n" false "smallint" "int2") (by decide)).2.1.mp
     (by decide)⟩

/-- C18: the output of `SqlBuilderColumnType` depends on `DataType` only, that of
`GoBaseType` on `DataType` and `EnumName` only, and that of `GoModelType` not on
`Name`. -/
theorem resolvers_read_needed_fields (name name2 dataType enumName enumName2 : String)
    (nullable nullable2 : Bool) :
    SqlBuilderColumnType (ColumnInfo.mk name nullable dataType enumName)
      = SqlBuilderColumnType (ColumnInfo.mk name2 nullable2 dataType enumName2) ∧
    GoBaseType (ColumnInfo.mk name nullable dataType enumName)
      = GoBaseType (ColumnInfo.mk name2 nullable2 dataType enumName) ∧
    GoModelType (ColumnInfo.mk name nullable dataType enumName)
      = GoModelType (ColumnInfo.mk name2 nullable dataType enumName) :=
  ⟨rfl, rfl, rfl⟩

end PostgresMetadata
